import Mathlib

/-
  Verification of the dual-loop (Planner / Executor) supervision core of
  Open-AutoGLM (Rust), as specified in the repository's dual-loop design
  documents.

  Shallow embedding conventions:
  - Rust u32 / u64 counters are modelled as Nat: the only operations the
    code performs on them are increment-by-one and reset-to-zero, and all
    properties of interest concern values near small thresholds, far below
    2^32, so wrap-around is unreachable in any stated property.
  - HashMap<String, V> is modelled as an association list with
    insert-or-replace update, matching the map's observable behaviour.
  - The PhoneAgent inner agent, the model client and the device backend are
    external collaborators (spec section 6); only the state components the
    supervision core reads or writes are modelled.
  - VecDeque is modelled as a List: push_back appends at the right,
    pop_front drops the head.
-/

namespace AutoGLM

/-- Status of the inner Executor loop, from src/executor.rs. -/
inductive ExecutorStatus where
  | Idle
  | Running
  | Paused
  | Stuck
  | Completed
  | Failed (reason : String)
  deriving DecidableEq, Repr

/-- Result of a single Executor step (fields per the design document's
ExecutorFeedback example; the action payload is kept as its rendered
string since action parsing is an external collaborator). -/
structure StepResult where
  success : Bool
  finished : Bool
  action : Option String
  thinking : String
  message : Option String
  deriving DecidableEq, Repr

/-- Commands the Planner sends to the Executor, from src/executor.rs. -/
inductive ExecutorCommand where
  | StartTask (task_id : String) (description : String) (system_prompt : Option String)
  | Pause
  | Resume
  | InjectPrompt (content : String)
  | ResetContext
  | Stop
  deriving DecidableEq, Repr

/-- Feedback the Executor emits to the Planner, from src/executor.rs. -/
structure ExecutorFeedback where
  step_count : Nat
  status : ExecutorStatus
  last_result : Option StepResult
  screen_changed : Bool
  timestamp : Nat
  deriving DecidableEq, Repr

/-- Status of a todo item, from src/planner.rs. -/
inductive TodoStatus where
  | Pending
  | Running
  | Done
  | Failed
  deriving DecidableEq, Repr

/-- A Planner todo item, from src/planner.rs. -/
structure TodoItem where
  id : String
  description : String
  task_type : String
  status : TodoStatus
  retry_count : Nat
  deriving DecidableEq, Repr

/-- The state components of the wrapped PhoneAgent that the supervision
core can affect (context and step counter); its model client and device
handles are external collaborators and play no role in any property. -/
structure PhoneAgentState where
  context : List String
  step_count : Nat
  deriving DecidableEq, Repr

/-- The ExecutorWrapper state, from the design document
(src/prompt_memory.rs, ExecutorWrapper struct): wrapped inner agent,
status, FIFO command queue, retained screen fingerprint and the
consecutive-unchanged counter. -/
structure ExecutorWrapper where
  inner : PhoneAgentState
  status : ExecutorStatus
  message_queue : List ExecutorCommand
  last_screen_hash : Option Nat
  stuck_count : Nat
  deriving DecidableEq, Repr

/-- Stagnation check, translated from ExecutorWrapper::detect_stuck in
src/prompt_memory.rs (lines 556-570): if a fingerprint is retained from
the previous tick, an equal current fingerprint increments the
unchanged-counter and a different one resets it to zero; the current
fingerprint is then retained, and the check reports stuck exactly when
the (updated) counter has reached the threshold. The STUCK_THRESHOLD
constant is passed as the parameter t. -/
def detect_stuck (t : Nat) (w : ExecutorWrapper) (current_screen_hash : Nat) :
    Bool × ExecutorWrapper :=
  let w1 :=
    match w.last_screen_hash with
    | some last_hash =>
        if last_hash = current_screen_hash then
          { w with stuck_count := w.stuck_count + 1 }
        else
          { w with stuck_count := 0 }
    | none => w
  let w2 := { w1 with last_screen_hash := some current_screen_hash }
  (decide (t ≤ w2.stuck_count), w2)

/-- Modelled from the spec: the bodies of the ExecutorWrapper command
handlers are not in the repository (src declares ExecutorCommand and the
wrapper interface only); the effect of each command follows the spec's
ExecutorStatus transition table (spec section 3) and stagnation rules
(section 4.1): StartTask begins a fresh run (fresh context, fresh
fingerprint baseline, counter 0) and is listed only from non-Stuck
states; Pause applies from Running; Resume from Paused; InjectPrompt
appends the corrective content to the inner context, resets the counter,
captures a fresh baseline and clears Stuck back to Running; ResetContext
clears the inner context, resets the counter, captures a fresh baseline
and clears Stuck back to Running; Stop transitions to the terminal
non-Running Idle state and resets the stagnation state. -/
def apply_command (w : ExecutorWrapper) (cmd : ExecutorCommand) : ExecutorWrapper :=
  match cmd with
  | ExecutorCommand.StartTask _ _ _ =>
      if w.status = ExecutorStatus.Stuck then w
      else
        { w with status := ExecutorStatus.Running,
                 stuck_count := 0,
                 last_screen_hash := none,
                 inner := { context := [], step_count := 0 } }
  | ExecutorCommand.Pause =>
      if w.status = ExecutorStatus.Running then
        { w with status := ExecutorStatus.Paused }
      else w
  | ExecutorCommand.Resume =>
      if w.status = ExecutorStatus.Paused then
        { w with status := ExecutorStatus.Running }
      else w
  | ExecutorCommand.InjectPrompt content =>
      { w with status := if w.status = ExecutorStatus.Stuck then ExecutorStatus.Running
                         else w.status,
               stuck_count := 0,
               last_screen_hash := none,
               inner := { w.inner with context := w.inner.context ++ [content] } }
  | ExecutorCommand.ResetContext =>
      { w with status := if w.status = ExecutorStatus.Stuck then ExecutorStatus.Running
                         else w.status,
               stuck_count := 0,
               last_screen_hash := none,
               inner := { w.inner with context := [] } }
  | ExecutorCommand.Stop =>
      { w with status := ExecutorStatus.Idle,
               stuck_count := 0,
               last_screen_hash := none }

/-- Command enqueue: appends to the wrapper's FIFO message queue
(ExecutorWrapper::enqueue). -/
def enqueue (w : ExecutorWrapper) (cmd : ExecutorCommand) : ExecutorWrapper :=
  { w with message_queue := w.message_queue ++ [cmd] }

/-- Modelled from the spec: the body of ExecutorWrapper::tick is not in
the repository (only its declaration); per spec section 4.1 a tick
dequeues at most one command, applies it, and then, only if the status is
Running, performs one perceive/decide/act cycle: the perceived screen
fingerprint (an input here, since perception is an external collaborator)
is fed to detect_stuck, the status becomes Stuck when the check reports
it, and a feedback is emitted carrying the step counter, the status and
whether the screen changed relative to the retained fingerprint. The
decide/act result comes from the external model collaborator and is not
modelled (last_result is none, timestamp 0). -/
def executor_tick (t : Nat) (w : ExecutorWrapper) (screen_hash : Nat) :
    ExecutorWrapper × ExecutorFeedback :=
  let w1 :=
    match w.message_queue with
    | [] => w
    | c :: rest => apply_command { w with message_queue := rest } c
  if w1.status = ExecutorStatus.Running then
    let changed := decide (w1.last_screen_hash ≠ some screen_hash)
    let r := detect_stuck t w1 screen_hash
    let w2 := { r.2 with
        status := if r.1 then ExecutorStatus.Stuck else r.2.status,
        inner := { r.2.inner with step_count := r.2.inner.step_count + 1 } }
    (w2, { step_count := w2.inner.step_count, status := w2.status,
           last_result := none, screen_changed := changed, timestamp := 0 })
  else
    (w1, { step_count := w1.inner.step_count, status := w1.status,
           last_result := none, screen_changed := false, timestamp := 0 })

/-- Run the Executor for one tick per listed screen fingerprint, with no
commands arriving. -/
def run_hashes (t : Nat) (w : ExecutorWrapper) : List Nat → ExecutorWrapper
  | [] => w
  | h :: rest => run_hashes t (executor_tick t w h).1 rest

/-- Run the Executor for one tick per event, where an event is an optional
command delivered (enqueued) just before the tick together with the
screen fingerprint perceived during the tick. -/
def run_events (t : Nat) (w : ExecutorWrapper) :
    List (Option ExecutorCommand × Nat) → ExecutorWrapper
  | [] => w
  | e :: rest =>
      let w0 := match e.1 with
        | some c => enqueue w c
        | none => w
      run_events t (executor_tick t w0 e.2).1 rest

/-- Commands whose processing the stagnation spec does not list as
clearing the Stuck condition: absence of a command, Pause, Resume and a
bare StartTask (task cancellation via Stop is a separate terminal
transition and is treated under the cancellation property). -/
def non_clearing_cmd : Option ExecutorCommand → Bool
  | none => true
  | some (ExecutorCommand.StartTask _ _ _) => true
  | some ExecutorCommand.Pause => true
  | some ExecutorCommand.Resume => true
  | some _ => false

/-- Planner configuration, from the design document's PlannerConfig
(src/prompt_memory.rs lines 299-310); the model configuration is an
external collaborator and is omitted. -/
structure PlannerConfig where
  max_executor_feedback_history : Nat
  stuck_threshold : Nat
  prompt_memory_path : Option String
  deriving DecidableEq, Repr

/-- The while loop of collect_executor_feedback: while the history is
longer than the cap, pop the oldest (front) entry. -/
def trim_front (maxLen : Nat) : List ExecutorFeedback → List ExecutorFeedback
  | [] => []
  | f :: rest =>
      if rest.length + 1 > maxLen then trim_front maxLen rest
      else f :: rest

/-- Feedback collection, translated from
PlannerAgent::collect_executor_feedback in src/prompt_memory.rs
(lines 516-525): push the feedback at the back, then pop from the front
while the length exceeds max_executor_feedback_history. -/
def collect_executor_feedback (cfg : PlannerConfig)
    (hist : List ExecutorFeedback) (feedback : ExecutorFeedback) :
    List ExecutorFeedback :=
  trim_front cfg.max_executor_feedback_history (hist ++ [feedback])

/-- Modelled from the spec: the body of PlannerAgent::supervise_executor
is not in the repository (src has only its declaration and the design
requirement); the trigger condition follows spec section 4.2 and the
design document: intervene when the two most recent feedback entries both
report screen_changed = false, or when the latest feedback's status is
Stuck. The history list is kept in collection order (oldest first), as
maintained by collect_executor_feedback. -/
def should_intervene (hist : List ExecutorFeedback) : Bool :=
  match hist.reverse with
  | [] => false
  | [latest] => decide (latest.status = ExecutorStatus.Stuck)
  | latest :: prev :: _ =>
      (!latest.screen_changed && !prev.screen_changed) ||
        decide (latest.status = ExecutorStatus.Stuck)

/-- A stored prompt entry, from src/prompt_memory.rs (lines 2-6):
an optimized system prompt with its last update time. -/
structure PromptEntry where
  system_prompt : String
  last_updated : String
  deriving DecidableEq, Repr

/-- Insert-or-replace on an association list: the model of
HashMap::insert for the prompt map. -/
def hm_insert (k : String) (v : PromptEntry) :
    List (String × PromptEntry) → List (String × PromptEntry)
  | [] => [(k, v)]
  | (k', v') :: rest =>
      if k' = k then (k, v) :: rest else (k', v') :: hm_insert k v rest

/-- Key lookup on an association list: the model of HashMap::get. -/
def hm_lookup (k : String) : List (String × PromptEntry) → Option PromptEntry
  | [] => none
  | (k', v') :: rest => if k' = k then some v' else hm_lookup k rest

/-- The prompt memory, from src/prompt_memory.rs (lines 8-11): a mapping
from task type to prompt entry, the HashMap modelled as an association
list. -/
structure PromptMemory where
  prompts : List (String × PromptEntry)
  deriving DecidableEq, Repr

/-- Modelled from the spec: the body of PromptMemory::update is not in
the repository (only its declaration); per spec section 3 the entry for
the task type is overwritten wholesale (last-write-wins), stamped with
the update time. -/
def PromptMemory.update (m : PromptMemory) (task_type : String)
    (prompt : String) (now : String) : PromptMemory :=
  { prompts :=
      hm_insert task_type { system_prompt := prompt, last_updated := now }
        m.prompts }

/-- Modelled from the spec: the body of PromptMemory::get is not in the
repository (only its declaration); it returns the stored system prompt
for the task type, when present. -/
def PromptMemory.get (m : PromptMemory) (task_type : String) : Option String :=
  (hm_lookup task_type m.prompts).map PromptEntry.system_prompt

/-- Modelled from the spec: the on-disk prompt-memory document at its
logical schema (spec section 6): a key-value document keyed by task_type;
none models a missing file. -/
abbrev Storage := Option (List (String × PromptEntry))

/-- Modelled from the spec: the body of PromptMemory::save is not in the
repository (only its declaration); it serializes the whole mapping as the
stored document (all-or-nothing per update). -/
def PromptMemory.save (m : PromptMemory) : List (String × PromptEntry) :=
  m.prompts

/-- Modelled from the spec: the body of PromptMemory::load is not in the
repository (only its declaration); load is best-effort: a missing file
yields an empty memory, otherwise the stored document is read back. -/
def PromptMemory.load (s : Storage) : PromptMemory :=
  { prompts := s.getD [] }

/-- Save outcomes of the external backing store: persistence may fail. -/
inductive SaveOutcome where
  | ok
  | ioError
  deriving DecidableEq, Repr

/-- Modelled from the spec: persisting prompt memory to the backing store
with an explicit failure outcome (spec section 7(d)) — a successful save
writes the serialized mapping; a failed save is logged, non-fatal, and
leaves the store unchanged. -/
def persist (outcome : SaveOutcome) (m : PromptMemory) (s : Storage) :
    Storage :=
  match outcome with
  | SaveOutcome.ok => some (PromptMemory.save m)
  | SaveOutcome.ioError => s

/-- Prompt optimization flow, translated from
PlannerAgent::optimize_prompt in src/prompt_memory.rs (lines 626-644):
when the planning-model collaborator returns an optimized prompt, the
in-memory prompt memory is updated for the task type and then saved; a
model error leaves everything unchanged. The model response and the save
outcome are inputs here since both collaborators are external. -/
def optimize_prompt (model_result : Option String) (outcome : SaveOutcome)
    (task_type now : String) (mem : PromptMemory) (store : Storage) :
    PromptMemory × Storage :=
  match model_result with
  | none => (mem, store)
  | some prompt =>
      let mem' := mem.update task_type prompt now
      (mem', persist outcome mem' store)

/-- Stuck-handling escalation, translated from PlannerAgent::handle_stuck
in src/prompt_memory.rs (lines 576-597): always inject a corrective
prompt first; when the consecutive stuck count exceeds the configured
limit (MAX_STUCK_RETRIES), additionally reset the Executor context and
restart the current task. The corrective instruction and the enhanced
system prompt come from the planning-model collaborator and are
parameters here. -/
def handle_stuck (consecutive_stuck_count max_stuck_retries : Nat)
    (correction_prompt : String) (task_id task_description : String)
    (enhanced_system_prompt : Option String) : List ExecutorCommand :=
  ExecutorCommand.InjectPrompt correction_prompt ::
    (if consecutive_stuck_count > max_stuck_retries then
      [ExecutorCommand.ResetContext,
       ExecutorCommand.StartTask task_id task_description
         enhanced_system_prompt]
     else [])

/-- The PlannerAgent state components relevant to supervision, from the
design document's PlannerAgent struct: todo list, bounded feedback
history, user input queue and prompt memory, together with the
consecutive stuck counter and the current-task bookkeeping that
handle_stuck reads. -/
structure PlannerAgentState where
  todo_list : List TodoItem
  executor_feedback_history : List ExecutorFeedback
  user_input_queue : List String
  consecutive_stuck_count : Nat
  current_task_id : String
  current_task_description : String
  current_task_type : String
  prompt_memory : PromptMemory
  deriving DecidableEq, Repr

/-- Modelled from the spec: the supervision half of PlannerAgent::tick is
not in the repository (only declarations); per spec section 4.2 the
Planner pulls the latest feedback if one arrived since its last tick,
appends it to the bounded history, runs the supervision check, and on an
intervention escalates through handle_stuck with the incremented
consecutive-intervention count; without an intervention the consecutive
count resets. The corrective instruction comes from the planning-model
collaborator (a parameter). -/
def planner_decide (cfg : PlannerConfig) (max_stuck_retries : Nat)
    (correction_prompt : String) (p : PlannerAgentState)
    (latest : Option ExecutorFeedback) :
    PlannerAgentState × List ExecutorCommand :=
  let hist :=
    match latest with
    | some fb => collect_executor_feedback cfg p.executor_feedback_history fb
    | none => p.executor_feedback_history
  if should_intervene hist then
    let n := p.consecutive_stuck_count + 1
    ({ p with executor_feedback_history := hist,
              consecutive_stuck_count := n },
     handle_stuck n max_stuck_retries correction_prompt
       p.current_task_id p.current_task_description
       (p.prompt_memory.get p.current_task_type))
  else
    ({ p with executor_feedback_history := hist,
              consecutive_stuck_count := 0 }, [])

/-- Command delivery from Planner to Executor: the only write the Planner
performs on the Executor is ExecutorWrapper::enqueue
(PlannerAgent::send_to_executor). -/
def send_to_executor (w : ExecutorWrapper) (cmd : ExecutorCommand) :
    ExecutorWrapper :=
  enqueue w cmd

/-- Modelled from the spec: a Planner tick's interaction with the
Executor (spec sections 4.2 and 4.3) — decisions are computed from the
Planner's own state and the retrieved feedback, and every resulting
command is delivered solely through send_to_executor; the Executor's step
logic is never invoked from the Planner. -/
def planner_tick (cfg : PlannerConfig) (max_stuck_retries : Nat)
    (correction_prompt : String) (p : PlannerAgentState)
    (w : ExecutorWrapper) (latest : Option ExecutorFeedback) :
    PlannerAgentState × ExecutorWrapper :=
  let pc := planner_decide cfg max_stuck_retries correction_prompt p latest
  (pc.1, pc.2.foldl send_to_executor w)

/-- Modelled from the spec: retry bookkeeping for escalated stagnation is
not in the repository (only the design requirement); per spec section 4.2
a restart of a stagnating TodoItem consumes a retry: while the configured
maximum is not yet reached the item is retried with retry_count
incremented and ResetContext followed by a fresh StartTask for the same
item is issued; once retry_count has reached the maximum the item is
marked Failed and abandoned with no commands issued. -/
def escalate_retry (max_retries : Nat) (item : TodoItem)
    (system_prompt : Option String) : TodoItem × List ExecutorCommand :=
  if item.retry_count ≥ max_retries then
    ({ item with status := TodoStatus.Failed }, [])
  else
    ({ item with retry_count := item.retry_count + 1 },
     [ExecutorCommand.ResetContext,
      ExecutorCommand.StartTask item.id item.description system_prompt])

/-- Modelled from the spec: task dispatch (spec section 4.2 step (b)) is
not in the repository — when no task is currently dispatched, the Planner
starts the first Pending TodoItem, passing the stored system prompt for
its task type; items whose status is not Pending are never dispatched. -/
def dispatch_pending (mem : PromptMemory) (items : List TodoItem) :
    List ExecutorCommand :=
  match items.find? (fun i => decide (i.status = TodoStatus.Pending)) with
  | some i =>
      [ExecutorCommand.StartTask i.id i.description (mem.get i.task_type)]
  | none => []

/-- Run the Executor for one tick per listed screen fingerprint,
collecting the feedback of each tick. -/
def run_collect (t : Nat) (w : ExecutorWrapper) :
    List Nat → List ExecutorFeedback
  | [] => []
  | h :: rest =>
      let r := executor_tick t w h
      r.2 :: run_collect t r.1 rest

/-- Scenario state for C5: a Running Executor that has captured
fingerprint baseline 42, with an empty command queue and a zero
stagnation counter. -/
def scenario_executor : ExecutorWrapper :=
  { inner := { context := [], step_count := 0 },
    status := ExecutorStatus.Running,
    message_queue := [],
    last_screen_hash := some 42,
    stuck_count := 0 }

/-- Scenario configuration for C5: the defaults from the design document
(history cap 2, stuck_threshold 3). -/
def scenario_config : PlannerConfig :=
  { max_executor_feedback_history := 2,
    stuck_threshold := 3,
    prompt_memory_path := some "prompt_memory.json" }

/-- Scenario feedbacks for C5: the Executor perceives the same screen
(fingerprint 42) for three consecutive ticks. -/
def scenario_feedbacks : List ExecutorFeedback :=
  run_collect scenario_config.stuck_threshold scenario_executor [42, 42, 42]

/-- Scenario Planner state for C5: fresh supervision state for the
current task. -/
def scenario_planner : PlannerAgentState :=
  { todo_list := [],
    executor_feedback_history := [],
    user_input_queue := [],
    consecutive_stuck_count := 0,
    current_task_id := "task-1",
    current_task_description := "open the target app",
    current_task_type := "navigation",
    prompt_memory := { prompts := [] } }

/-- Scenario commands for C5: the Planner pulls the latest Executor
feedback and decides, with consecutive-intervention limit 3. -/
def scenario_commands : List ExecutorCommand :=
  (planner_decide scenario_config 3 "try a different approach"
    scenario_planner scenario_feedbacks.getLast?).2

/-- C1: each detect_stuck call with a fingerprint equal to the retained one
increments the unchanged-counter by exactly 1; a differing fingerprint
resets it to 0; and the call reports stuck exactly when the updated
counter has reached the threshold. -/
theorem detect_stuck_spec (t : Nat) (w : ExecutorWrapper) (cur : Nat) :
    (w.last_screen_hash = some cur →
      (detect_stuck t w cur).2.stuck_count = w.stuck_count + 1) ∧
    (∀ prev : Nat, w.last_screen_hash = some prev → prev ≠ cur →
      (detect_stuck t w cur).2.stuck_count = 0) ∧
    ((detect_stuck t w cur).1 = true ↔ t ≤ (detect_stuck t w cur).2.stuck_count) := by
  refine ⟨?_, ?_, ?_⟩
  · intro h
    simp [detect_stuck, h]
  · intro prev hprev hne
    simp [detect_stuck, hprev, hne]
  · cases hl : w.last_screen_hash with
    | none => simp [detect_stuck, hl]
    | some prev =>
        by_cases hpc : prev = cur
        · simp [detect_stuck, hl, hpc]
        · simp [detect_stuck, hl, hpc]

lemma tick_same_hash (t : Nat) (w : ExecutorWrapper) (h : Nat)
    (hst : w.status = ExecutorStatus.Running) (hq : w.message_queue = [])
    (hh : w.last_screen_hash = some h) :
    (executor_tick t w h).1 =
      { w with
          status := if t ≤ w.stuck_count + 1 then ExecutorStatus.Stuck
                    else ExecutorStatus.Running,
          stuck_count := w.stuck_count + 1,
          last_screen_hash := some h,
          inner := { w.inner with step_count := w.inner.step_count + 1 } } := by
  by_cases hts : t ≤ w.stuck_count + 1
  · simp [executor_tick, detect_stuck, hst, hq, hh, hts]
  · simp [executor_tick, detect_stuck, hst, hq, hh, hts]

lemma run_hashes_append (t : Nat) (w : ExecutorWrapper) (l1 l2 : List Nat) :
    run_hashes t w (l1 ++ l2) = run_hashes t (run_hashes t w l1) l2 := by
  induction l1 generalizing w with
  | nil => simp [run_hashes]
  | cons a rest ih => simp [run_hashes, ih]

lemma run_same_hash_below (t : Nat) (h : Nat) :
    ∀ (k : Nat) (w : ExecutorWrapper),
      w.status = ExecutorStatus.Running → w.message_queue = [] →
      w.last_screen_hash = some h → w.stuck_count + k < t →
      (run_hashes t w (List.replicate k h)).status = ExecutorStatus.Running ∧
      (run_hashes t w (List.replicate k h)).stuck_count = w.stuck_count + k ∧
      (run_hashes t w (List.replicate k h)).message_queue = [] ∧
      (run_hashes t w (List.replicate k h)).last_screen_hash = some h := by
  intro k
  induction k with
  | zero =>
      intro w hst hq hh _
      refine ⟨?_, ?_, ?_, ?_⟩ <;> simp [run_hashes, hst, hq, hh]
  | succ n ih =>
      intro w hst hq hh hlt
      have hts : ¬ t ≤ w.stuck_count + 1 := by omega
      have hstep := tick_same_hash t w h hst hq hh
      have : List.replicate (n + 1) h = h :: List.replicate n h := rfl
      rw [this]
      simp only [run_hashes, hstep, hts, if_false]
      have := ih { w with
          status := ExecutorStatus.Running,
          stuck_count := w.stuck_count + 1,
          last_screen_hash := some h,
          inner := { w.inner with step_count := w.inner.step_count + 1 } }
        rfl hq rfl (by simp; omega)
      simpa [Nat.add_assoc, Nat.add_comm, Nat.add_left_comm] using this

lemma run_stuck_frozen_hashes (t : Nat) (w : ExecutorWrapper)
    (hst : w.status = ExecutorStatus.Stuck) (hq : w.message_queue = []) :
    ∀ hs : List Nat, run_hashes t w hs = w := by
  intro hs
  induction hs with
  | nil => rfl
  | cons a rest ih =>
      have : (executor_tick t w a).1 = w := by
        simp [executor_tick, hq, hst]
      simp [run_hashes, this, ih]

lemma run_replicate_stuck (t : Nat) (w : ExecutorWrapper) (h : Nat)
    (ht : 0 < t) (hst : w.status = ExecutorStatus.Running)
    (hq : w.message_queue = []) (hh : w.last_screen_hash = some h)
    (hc : w.stuck_count = 0) :
    (run_hashes t w (List.replicate t h)).status = ExecutorStatus.Stuck ∧
    (run_hashes t w (List.replicate t h)).message_queue = [] := by
  have hsplit : List.replicate t h = List.replicate (t - 1) h ++ [h] := by
    have : t = (t - 1) + 1 := by omega
    rw [this]
    simp [List.replicate_succ']
  obtain ⟨hst1, hc1, hq1, hh1⟩ :=
    run_same_hash_below t h (t - 1) w hst hq hh (by omega)
  have hstep := tick_same_hash t _ h hst1 hq1 hh1
  have hts : t ≤ (run_hashes t w (List.replicate (t - 1) h)).stuck_count + 1 := by
    rw [hc1, hc]; omega
  rw [hsplit, run_hashes_append]
  constructor
  · simp [run_hashes, hstep, hts]
  · simp [run_hashes, hstep, hts, hq1]

lemma run_stuck_frozen_events (t : Nat) :
    ∀ (evs : List (Option ExecutorCommand × Nat)) (w : ExecutorWrapper),
      w.status = ExecutorStatus.Stuck → w.message_queue = [] →
      (∀ e ∈ evs, non_clearing_cmd e.1 = true) →
      run_events t w evs = w := by
  intro evs
  induction evs with
  | nil => intro w _ _ _; rfl
  | cons e rest ih =>
      intro w hst hq hall
      have he : non_clearing_cmd e.1 = true := hall e (by simp)
      have hone : (executor_tick t
          (match e.1 with | some c => enqueue w c | none => w) e.2).1 = w := by
        obtain ⟨inn, st, q, lh, sc⟩ := w
        simp only at hst hq
        subst hst
        subst hq
        match hcmd : e.1 with
        | none =>
            simp [executor_tick]
        | some (ExecutorCommand.StartTask a b c) =>
            simp [executor_tick, enqueue, apply_command]
        | some ExecutorCommand.Pause =>
            simp [executor_tick, enqueue, apply_command]
        | some ExecutorCommand.Resume =>
            simp [executor_tick, enqueue, apply_command]
        | some (ExecutorCommand.InjectPrompt s) =>
            rw [hcmd] at he
            simp [non_clearing_cmd] at he
        | some ExecutorCommand.ResetContext =>
            rw [hcmd] at he
            simp [non_clearing_cmd] at he
        | some ExecutorCommand.Stop =>
            rw [hcmd] at he
            simp [non_clearing_cmd] at he
      simp only [run_events]
      rw [hone]
      exact ih w hst hq (fun x hx => hall x (by simp [hx]))

lemma inject_clears_stuck (t : Nat) (w : ExecutorWrapper) (content : String)
    (hsh : Nat) (ht : 0 < t)
    (hst : w.status = ExecutorStatus.Stuck) (hq : w.message_queue = []) :
    (executor_tick t (enqueue w (ExecutorCommand.InjectPrompt content)) hsh).1.status =
      ExecutorStatus.Running := by
  have hts : ¬ t ≤ 0 := by omega
  simp [executor_tick, enqueue, hq, apply_command, hst, detect_stuck, hts]

lemma reset_clears_stuck (t : Nat) (w : ExecutorWrapper)
    (hsh : Nat) (ht : 0 < t)
    (hst : w.status = ExecutorStatus.Stuck) (hq : w.message_queue = []) :
    (executor_tick t (enqueue w ExecutorCommand.ResetContext) hsh).1.status =
      ExecutorStatus.Running := by
  have hts : ¬ t ≤ 0 := by omega
  simp [executor_tick, enqueue, hq, apply_command, hst, detect_stuck, hts]

/-- C2: starting from a Running Executor with an empty queue, a captured
fingerprint baseline and a zero stagnation counter, a sequence of
identical fingerprints leaves the status Running with counter k for every
k below the threshold, makes the status Stuck for every length of at
least the threshold (so exactly when the counter first reaches it), and
the Stuck status then survives any further ticks with arbitrary
fingerprints (screen changes) and any non-clearing commands, while a tick
processing InjectPrompt or ResetContext returns the status to Running. -/
theorem executor_stuck_lifecycle (t : Nat) (w : ExecutorWrapper) (h : Nat)
    (ht : 0 < t) (hst : w.status = ExecutorStatus.Running)
    (hq : w.message_queue = []) (hh : w.last_screen_hash = some h)
    (hc : w.stuck_count = 0) :
    (∀ k, k < t →
      (run_hashes t w (List.replicate k h)).status = ExecutorStatus.Running ∧
      (run_hashes t w (List.replicate k h)).stuck_count = k) ∧
    (∀ N, t ≤ N →
      (run_hashes t w (List.replicate N h)).status = ExecutorStatus.Stuck) ∧
    (∀ evs : List (Option ExecutorCommand × Nat),
      (∀ e ∈ evs, non_clearing_cmd e.1 = true) →
      (run_events t (run_hashes t w (List.replicate t h)) evs).status =
        ExecutorStatus.Stuck) ∧
    (∀ content hsh,
      (executor_tick t (enqueue (run_hashes t w (List.replicate t h))
        (ExecutorCommand.InjectPrompt content)) hsh).1.status =
        ExecutorStatus.Running) ∧
    (∀ hsh,
      (executor_tick t (enqueue (run_hashes t w (List.replicate t h))
        ExecutorCommand.ResetContext) hsh).1.status = ExecutorStatus.Running) := by
  obtain ⟨hstuck, hqstuck⟩ := run_replicate_stuck t w h ht hst hq hh hc
  refine ⟨?_, ?_, ?_, ?_, ?_⟩
  · intro k hk
    obtain ⟨h1, h2, _, _⟩ :=
      run_same_hash_below t h k w hst hq hh (by omega)
    exact ⟨h1, by omega⟩
  · intro N hN
    have hsplit : List.replicate N h = List.replicate t h ++ List.replicate (N - t) h := by
      rw [← List.replicate_add]
      congr 1
      omega
    rw [hsplit, run_hashes_append,
        run_stuck_frozen_hashes t _ hstuck hqstuck]
    exact hstuck
  · intro evs hall
    rw [run_stuck_frozen_events t evs _ hstuck hqstuck hall]
    exact hstuck
  · intro content hsh
    exact inject_clears_stuck t _ content hsh ht hstuck hqstuck
  · intro hsh
    exact reset_clears_stuck t _ hsh ht hstuck hqstuck

/-- Witness for C2 with threshold 3, fingerprint 42 and a fresh Running
state: after three identical fingerprints the status is Stuck. -/
theorem executor_stuck_lifecycle_witness :
    (run_hashes 3
      { inner := { context := [], step_count := 0 },
        status := ExecutorStatus.Running,
        message_queue := [],
        last_screen_hash := some 42,
        stuck_count := 0 } (List.replicate 3 42)).status = ExecutorStatus.Stuck :=
  ((executor_stuck_lifecycle 3
    { inner := { context := [], step_count := 0 },
      status := ExecutorStatus.Running,
      message_queue := [],
      last_screen_hash := some 42,
      stuck_count := 0 } 42 (by decide) rfl rfl rfl rfl).2.1) 3 (by decide)

lemma trim_front_eq_drop (m : Nat) :
    ∀ l : List ExecutorFeedback, trim_front m l = l.drop (l.length - m) := by
  intro l
  induction l with
  | nil => simp [trim_front]
  | cons f rest ih =>
      by_cases hlen : rest.length + 1 > m
      · have harith : (f :: rest).length - m = (rest.length - m) + 1 := by
          simp only [List.length_cons]
          omega
        simp only [trim_front, hlen, if_true, harith, List.drop_succ_cons]
        exact ih
      · have harith : rest.length + 1 - m = 0 := by omega
        simp [trim_front, hlen, harith]

lemma drop_append_absorb (m : Nat) (x fs : List ExecutorFeedback) :
    ((x.drop (x.length - m)) ++ fs).drop
        (((x.drop (x.length - m)) ++ fs).length - m) =
      (x ++ fs).drop ((x ++ fs).length - m) := by
  rw [List.drop_append_eq_append_drop, List.drop_append_eq_append_drop,
      List.drop_drop]
  congr 1
  · congr 1
    simp only [List.length_append, List.length_drop]
    omega
  · congr 1
    simp only [List.length_append, List.length_drop]
    omega

lemma foldl_collect_eq_drop (cfg : PlannerConfig) :
    ∀ (fs : List ExecutorFeedback) (h : List ExecutorFeedback),
      h.length ≤ cfg.max_executor_feedback_history →
      List.foldl (collect_executor_feedback cfg) h fs =
        (h ++ fs).drop ((h ++ fs).length -
          cfg.max_executor_feedback_history) := by
  set m := cfg.max_executor_feedback_history with hm
  intro fs
  induction fs with
  | nil =>
      intro h hlen
      have h0 : h.length - m = 0 := by omega
      simp [h0]
  | cons f rest ih =>
      intro h hlen
      have hcollect : collect_executor_feedback cfg h f =
          (h ++ [f]).drop ((h ++ [f]).length - m) := by
        rw [collect_executor_feedback, trim_front_eq_drop]
      have hshort : (collect_executor_feedback cfg h f).length ≤ m := by
        rw [hcollect]
        simp only [List.length_drop]
        omega
      calc List.foldl (collect_executor_feedback cfg) h (f :: rest)
          = List.foldl (collect_executor_feedback cfg)
              (collect_executor_feedback cfg h f) rest := rfl
        _ = ((collect_executor_feedback cfg h f) ++ rest).drop
              (((collect_executor_feedback cfg h f) ++ rest).length - m) :=
            ih _ hshort
        _ = ((h ++ [f]) ++ rest).drop (((h ++ [f]) ++ rest).length - m) := by
            rw [hcollect]
            exact drop_append_absorb m (h ++ [f]) rest
        _ = (h ++ (f :: rest)).drop ((h ++ (f :: rest)).length - m) := by
            rw [List.append_assoc]
            rfl

/-- C3: starting from an empty history, any finite sequence of
collect_executor_feedback operations leaves exactly the most recently
collected entries in collection order (the feedback list minus its oldest
overflow prefix), and in particular the history length never exceeds
max_executor_feedback_history: the bound is enforced by FIFO eviction of
the oldest entry, never by summarization. -/
theorem collect_executor_feedback_bounded (cfg : PlannerConfig)
    (fs : List ExecutorFeedback) :
    List.foldl (collect_executor_feedback cfg) [] fs =
      fs.drop (fs.length - cfg.max_executor_feedback_history) ∧
    (List.foldl (collect_executor_feedback cfg) [] fs).length ≤
      cfg.max_executor_feedback_history := by
  have h := foldl_collect_eq_drop cfg fs [] (by simp)
  simp only [List.nil_append] at h
  refine ⟨h, ?_⟩
  rw [h]
  simp only [List.length_drop]
  omega

/-- C4: the supervision check triggers an intervention exactly when the
history decomposes with two most recent entries that both report an
unchanged screen, or with a most recent entry whose status is Stuck; in
particular a history with fewer than two entries whose latest status is
not Stuck triggers nothing. -/
theorem supervise_trigger_iff (hist : List ExecutorFeedback) :
    should_intervene hist = true ↔
      ((∃ rest prev latest, hist = rest ++ [prev, latest] ∧
          latest.screen_changed = false ∧ prev.screen_changed = false) ∨
       (∃ rest latest, hist = rest ++ [latest] ∧
          latest.status = ExecutorStatus.Stuck)) := by
  rcases hrev : hist.reverse with _ | ⟨latest, rest'⟩
  · have hnil : hist = [] := by
      have h2 := congrArg List.reverse hrev
      simpa using h2
    subst hnil
    simp [should_intervene]
  · have hh : hist = rest'.reverse ++ [latest] := by
      have h2 := congrArg List.reverse hrev
      simpa using h2
    rcases rest' with _ | ⟨prev, rest''⟩
    · simp only [List.reverse_nil, List.nil_append] at hh
      subst hh
      simp only [should_intervene, List.reverse_cons, List.reverse_nil,
        List.nil_append]
      constructor
      · intro hs
        right
        exact ⟨[], latest, by simp, by simpa using hs⟩
      · rintro (⟨rest, prev, l, heq, _⟩ | ⟨rest, l, heq, hstk⟩)
        · exfalso
          have := congrArg List.length heq
          simp at this
        · have hr : l = latest := by
            rcases rest with _ | ⟨a, rs⟩
            · have h4 : latest = l := by simpa using heq
              exact h4.symm
            · exfalso
              have h5 := congrArg List.length heq
              simp at h5
          subst hr
          simpa using hstk
    · have hh2 : hist = rest''.reverse ++ [prev, latest] := by
        rw [hh]
        simp
      simp only [should_intervene, hrev]
      constructor
      · intro hs
        simp only [Bool.or_eq_true, Bool.and_eq_true, Bool.not_eq_true',
          decide_eq_true_eq] at hs
        rcases hs with ⟨hl, hp⟩ | hstk
        · exact Or.inl ⟨rest''.reverse, prev, latest, hh2, hl, hp⟩
        · exact Or.inr ⟨rest''.reverse ++ [prev], latest, by rw [hh2]; simp, hstk⟩
      · rintro (⟨rest, p, l, heq, hl, hp⟩ | ⟨rest, l, heq, hstk⟩)
        · have hinj := List.append_inj' (hh2.symm.trans heq) (by simp)
          have hpl : p = prev ∧ l = latest := by
            have h4 := hinj.2
            simp at h4
            exact ⟨h4.1.symm, h4.2.symm⟩
          rcases hpl with ⟨rfl, rfl⟩
          simp [hl, hp]
        · have hh3 : hist = (rest''.reverse ++ [prev]) ++ [latest] := by
            rw [hh2]
            simp
          have hinj := List.append_inj' (hh3.symm.trans heq) (by simp)
          have hll : l = latest := by
            have h4 := hinj.2
            simpa using h4.symm
          subst hll
          simp [hstk]

/-- Witness for C1 at a concrete state: previous fingerprint 7 retained,
counter 1, calling with fingerprint 7 yields counter 2. -/
theorem detect_stuck_spec_witness :
    (detect_stuck 3
      { inner := { context := [], step_count := 0 },
        status := ExecutorStatus.Running,
        message_queue := [],
        last_screen_hash := some 7,
        stuck_count := 1 } 7).2.stuck_count = 1 + 1 :=
  (detect_stuck_spec 3
    { inner := { context := [], step_count := 0 },
      status := ExecutorStatus.Running,
      message_queue := [],
      last_screen_hash := some 7,
      stuck_count := 1 } 7).1 rfl

lemma foldl_send_frame (cmds : List ExecutorCommand) :
    ∀ w : ExecutorWrapper,
      (cmds.foldl send_to_executor w).message_queue =
          w.message_queue ++ cmds ∧
      (cmds.foldl send_to_executor w).status = w.status ∧
      (cmds.foldl send_to_executor w).last_screen_hash =
          w.last_screen_hash ∧
      (cmds.foldl send_to_executor w).stuck_count = w.stuck_count ∧
      (cmds.foldl send_to_executor w).inner = w.inner := by
  induction cmds with
  | nil => intro w; simp
  | cons c rest ih =>
      intro w
      have h := ih (send_to_executor w c)
      simpa [send_to_executor, enqueue] using h

/-- C5: escalation order of stuck handling — every handle_stuck
invocation opens with an InjectPrompt; ResetContext appears in its
output exactly when the consecutive-intervention count exceeds the
configured limit, and wherever it appears it is immediately followed by
a fresh StartTask for the same task; and concretely, with stuck_threshold
3, three consecutive feedbacks with unchanged screens lead the Planner to
issue exactly one InjectPrompt and no ResetContext. -/
theorem handle_stuck_escalation :
    (∀ (n limit : Nat) (cp tid td : String) (sp : Option String),
      (handle_stuck n limit cp tid td sp).head? =
        some (ExecutorCommand.InjectPrompt cp)) ∧
    (∀ (n limit : Nat) (cp tid td : String) (sp : Option String),
      ExecutorCommand.ResetContext ∈ handle_stuck n limit cp tid td sp ↔
        n > limit) ∧
    (∀ (n limit : Nat) (cp tid td : String) (sp : Option String) (i : Nat),
      (handle_stuck n limit cp tid td sp)[i]? =
          some ExecutorCommand.ResetContext →
      (handle_stuck n limit cp tid td sp)[i + 1]? =
          some (ExecutorCommand.StartTask tid td sp)) ∧
    (scenario_feedbacks.map ExecutorFeedback.screen_changed =
        [false, false, false] ∧
      scenario_commands =
        [ExecutorCommand.InjectPrompt "try a different approach"]) := by
  refine ⟨?_, ?_, ?_, ?_, ?_⟩
  · intro n limit cp tid td sp
    simp [handle_stuck]
  · intro n limit cp tid td sp
    by_cases h : n > limit
    · simp [handle_stuck, h]
    · simp [handle_stuck, h]
  · intro n limit cp tid td sp i hi
    by_cases h : n > limit
    · match i with
      | 0 => simp [handle_stuck, h] at hi
      | 1 => simp [handle_stuck, h] at hi ⊢
      | 2 => simp [handle_stuck, h] at hi
      | k + 3 => simp [handle_stuck, h] at hi
    · match i with
      | 0 => simp [handle_stuck, h] at hi
      | k + 1 => simp [handle_stuck, h] at hi
  · decide
  · decide

/-- Witness for C5 at consecutive count 5 against limit 3: the command at
index 1 is ResetContext, so the command at index 2 restarts the task. -/
theorem handle_stuck_escalation_witness :
    (handle_stuck 5 3 "fix" "task-9" "retry the flow" none)[2]? =
      some (ExecutorCommand.StartTask "task-9" "retry the flow" none) :=
  handle_stuck_escalation.2.2.1 5 3 "fix" "task-9" "retry the flow" none 1
    (by decide)

/-- C6: a TodoItem whose retry_count has reached the configured maximum
is marked Failed by the escalation and no command (in particular no
StartTask) is issued for it; while retries remain, the escalation does
not fail the item but retries it — status unchanged, retry_count
incremented, and ResetContext followed by a fresh StartTask for the same
item issued — so escalation produces a Failed item only when it was
already Failed or its retries are exhausted; and task dispatch only ever
emits StartTask commands carrying the id of an item whose status is
Pending, so a Failed item receives no further StartTask. -/
theorem retry_exhaustion_fails (max_retries : Nat) (item : TodoItem)
    (sp : Option String) :
    (max_retries ≤ item.retry_count →
      (escalate_retry max_retries item sp).1.status = TodoStatus.Failed ∧
      (escalate_retry max_retries item sp).2 = []) ∧
    (item.retry_count < max_retries →
      (escalate_retry max_retries item sp).1.status = item.status ∧
      (escalate_retry max_retries item sp).1.retry_count =
          item.retry_count + 1 ∧
      (escalate_retry max_retries item sp).2 =
        [ExecutorCommand.ResetContext,
         ExecutorCommand.StartTask item.id item.description sp]) ∧
    ((escalate_retry max_retries item sp).1.status = TodoStatus.Failed →
      item.status = TodoStatus.Failed ∨ max_retries ≤ item.retry_count) ∧
    (∀ (mem : PromptMemory) (items : List TodoItem) (tid td : String)
        (sp' : Option String),
      ExecutorCommand.StartTask tid td sp' ∈ dispatch_pending mem items →
      ∃ i ∈ items, i.id = tid ∧ i.status = TodoStatus.Pending) := by
  refine ⟨?_, ?_, ?_, ?_⟩
  · intro hmax
    constructor
    · simp [escalate_retry, hmax]
    · simp [escalate_retry, hmax]
  · intro hlt
    have hmax : ¬ max_retries ≤ item.retry_count := by omega
    refine ⟨?_, ?_, ?_⟩
    · simp [escalate_retry, hmax]
    · simp [escalate_retry, hmax]
    · simp [escalate_retry, hmax]
  · intro hfailed
    by_cases hmax : max_retries ≤ item.retry_count
    · exact Or.inr hmax
    · left
      simpa [escalate_retry, hmax] using hfailed
  · intro mem items tid td sp' hmem
    match hfind : items.find? (fun i => decide (i.status = TodoStatus.Pending)) with
    | some i =>
        have hin : i ∈ items := List.mem_of_find?_eq_some hfind
        have hpend : i.status = TodoStatus.Pending := by
          have := List.find?_some hfind
          simpa using this
        rw [dispatch_pending, hfind] at hmem
        simp at hmem
        exact ⟨i, hin, hmem.1.symm, hpend⟩
    | none =>
        rw [dispatch_pending, hfind] at hmem
        simp at hmem

/-- Witness for C6 at concrete items with maximum 3: retry_count 3 is
marked Failed with no commands, while retry_count 1 is not failed and is
retried with retry_count 2 and a ResetContext followed by a restart of
the same item. -/
theorem retry_exhaustion_fails_witness :
    ((escalate_retry 3
      { id := "t1", description := "d", task_type := "nav",
        status := TodoStatus.Running, retry_count := 3 } none).1.status =
      TodoStatus.Failed ∧
     (escalate_retry 3
      { id := "t1", description := "d", task_type := "nav",
        status := TodoStatus.Running, retry_count := 3 } none).2 = []) ∧
    (escalate_retry 3
      { id := "t1", description := "d", task_type := "nav",
        status := TodoStatus.Running, retry_count := 1 } none).1.status =
      TodoStatus.Running ∧
    (escalate_retry 3
      { id := "t1", description := "d", task_type := "nav",
        status := TodoStatus.Running, retry_count := 1 } none).1.retry_count =
      1 + 1 ∧
    (escalate_retry 3
      { id := "t1", description := "d", task_type := "nav",
        status := TodoStatus.Running, retry_count := 1 } none).2 =
      [ExecutorCommand.ResetContext,
       ExecutorCommand.StartTask "t1" "d" none] :=
  ⟨(retry_exhaustion_fails 3
      { id := "t1", description := "d", task_type := "nav",
        status := TodoStatus.Running, retry_count := 3 } none).1 (by decide),
   (retry_exhaustion_fails 3
      { id := "t1", description := "d", task_type := "nav",
        status := TodoStatus.Running, retry_count := 1 } none).2.1 (by decide)⟩

/-- C7: a Planner tick leaves every component of the Executor state
unchanged except the command queue, which is extended by exactly the
commands the Planner decided to send — the Planner never invokes the
Executor's step logic. -/
theorem planner_tick_frame (cfg : PlannerConfig) (max_stuck_retries : Nat)
    (correction_prompt : String) (p : PlannerAgentState)
    (w : ExecutorWrapper) (latest : Option ExecutorFeedback) :
    (planner_tick cfg max_stuck_retries correction_prompt p w latest).2.status
        = w.status ∧
    (planner_tick cfg max_stuck_retries correction_prompt p w latest).2.inner
        = w.inner ∧
    (planner_tick cfg max_stuck_retries correction_prompt p w
        latest).2.last_screen_hash = w.last_screen_hash ∧
    (planner_tick cfg max_stuck_retries correction_prompt p w
        latest).2.stuck_count = w.stuck_count ∧
    (planner_tick cfg max_stuck_retries correction_prompt p w
        latest).2.message_queue = w.message_queue ++
          (planner_decide cfg max_stuck_retries correction_prompt p
            latest).2 := by
  obtain ⟨h1, h2, h3, h4, h5⟩ :=
    foldl_send_frame
      (planner_decide cfg max_stuck_retries correction_prompt p latest).2 w
  exact ⟨h2, h5, h3, h4, h1⟩

/-- C8: processing Stop puts the Executor in the terminal non-Running
Idle state, processing it twice from any starting state yields exactly
the state of processing it once, and a stopped Executor with an empty
queue is inert under further ticks. -/
theorem stop_idempotent_terminal (w : ExecutorWrapper) :
    apply_command (apply_command w ExecutorCommand.Stop)
        ExecutorCommand.Stop = apply_command w ExecutorCommand.Stop ∧
    (apply_command w ExecutorCommand.Stop).status = ExecutorStatus.Idle ∧
    (apply_command w ExecutorCommand.Stop).status ≠ ExecutorStatus.Running ∧
    (∀ (t hsh : Nat),
      (executor_tick t
        { apply_command w ExecutorCommand.Stop with message_queue := [] }
        hsh).1 =
      { apply_command w ExecutorCommand.Stop with message_queue := [] }) := by
  refine ⟨?_, ?_, ?_, ?_⟩
  · simp [apply_command]
  · simp [apply_command]
  · simp [apply_command]
  · intro t hsh
    simp [apply_command, executor_tick]

/-- Witness for C8 at a concrete state: stopping a Running Executor twice
equals stopping it once. -/
theorem stop_idempotent_terminal_witness :
    apply_command (apply_command
      { inner := { context := ["m"], step_count := 4 },
        status := ExecutorStatus.Running,
        message_queue := [],
        last_screen_hash := some 9,
        stuck_count := 2 } ExecutorCommand.Stop) ExecutorCommand.Stop =
    apply_command
      { inner := { context := ["m"], step_count := 4 },
        status := ExecutorStatus.Running,
        message_queue := [],
        last_screen_hash := some 9,
        stuck_count := 2 } ExecutorCommand.Stop :=
  (stop_idempotent_terminal
    { inner := { context := ["m"], step_count := 4 },
      status := ExecutorStatus.Running,
      message_queue := [],
      last_screen_hash := some 9,
      stuck_count := 2 }).1

lemma hm_lookup_insert (k : String) (v : PromptEntry) :
    ∀ l : List (String × PromptEntry), hm_lookup k (hm_insert k v l) = some v := by
  intro l
  induction l with
  | nil => simp [hm_insert, hm_lookup]
  | cons p rest ih =>
      by_cases h : p.1 = k
      · simp [hm_insert, hm_lookup, h]
      · simp [hm_insert, hm_lookup, h, ih]

/-- C9: updating the prompt memory for a task type, saving it to storage
and loading a fresh memory from that storage yields the stored prompt for
that task type (the update-save-load round trip preserves the prompt). -/
theorem prompt_memory_round_trip (m : PromptMemory) (x p now : String) :
    (PromptMemory.load
        (some (PromptMemory.save (m.update x p now)))).get x = some p := by
  simp only [PromptMemory.load, PromptMemory.save, PromptMemory.update,
    PromptMemory.get, Option.getD_some]
  rw [hm_lookup_insert]
  rfl

/-- C10: persistence failures never corrupt the in-memory prompt map:
loading from a missing file yields the empty memory, and when a save
fails during prompt optimization the store is untouched while the
in-memory mapping holds exactly the updated value, which stays
authoritative (the new prompt is retrievable). -/
theorem persistence_non_fatal :
    (PromptMemory.load none).prompts = [] ∧
    (∀ (p task_type now : String) (mem : PromptMemory) (store : Storage),
      (optimize_prompt (some p) SaveOutcome.ioError task_type now mem
          store).1 = mem.update task_type p now ∧
      (optimize_prompt (some p) SaveOutcome.ioError task_type now mem
          store).2 = store ∧
      (optimize_prompt (some p) SaveOutcome.ioError task_type now mem
          store).1.get task_type = some p) := by
  refine ⟨rfl, ?_⟩
  intro p task_type now mem store
  refine ⟨rfl, rfl, ?_⟩
  simp only [optimize_prompt, PromptMemory.update, PromptMemory.get]
  rw [hm_lookup_insert]
  rfl

end AutoGLM
